import Mathlib

/-!
Shallow embedding of the RestoPOS backend (`src/backend/server.py`).

The document store (MongoDB reached through `motor`) is modelled as explicit
lists of documents, one per collection, held in a `DB` record.  Store-assigned
document ids (`ObjectId`) are modelled as natural numbers drawn from a counter
`DB.nextId`; every natural number is a well-formed id, so the
`ObjectId(...)`-parse failure paths of the source are unreachable in the model.
Python floats (prices, stock, quantities) are modelled as exact rationals
(`Rat`); `datetime` timestamp fields (`createdAt`, `updatedAt`, `date`) carry
no information any modelled endpoint reads, and are omitted.  Inert payload
fields never read by a modelled endpoint (emoji, image, description, modifiers
of a MenuItem, specialFlags) are likewise omitted.

Mongo operation semantics used by the source and mirrored here:
`insert_one` appends a document and assigns the next fresh id;
`find_one(filter)` returns the first matching document in insertion order;
`find_one(filter, sort=[(k, -1)])` returns a matching document maximal in `k`
(BSON orders `null` below every number); `update_one(filter, {$set/$inc: ...})`
modifies the first matching document; `delete_one(filter)` removes the first
matching document.

Each handler wraps its body in `try: ... except Exception as e: raise
HTTPException(500, str(e))`.  Exceptions the body can raise are modelled with
`Exc`; in handlers whose modelled body is total the wrapper is inert and the
handler returns plain values.  Crucially, an `HTTPException` raised inside the
body (the 404 of `get_order`) is itself an `Exception` and is converted by the
wrapper into a 500.
-/

namespace RestoPOS

/-- Ingredient requirement embedded in a MenuItem: the source stores dicts
`\x7bingredientId, quantity, unit\x7d` in `MenuItem.ingredients`. -/
structure Ingredient where
  ingredientId : Nat
  quantity : Rat
  unit : String
deriving DecidableEq

/-- Stored `menu_items` document (Pydantic `MenuItem` plus the store id). -/
structure MenuItemDoc where
  id : Nat
  name : String
  category : String
  price : Rat
  stock : Int
  soldOut : Bool
  ingredients : List Ingredient
deriving DecidableEq

/-- Stored `tables` document (Pydantic `Table` plus the store id). -/
structure TableDoc where
  id : Nat
  tableNumber : Int
  capacity : Int
  status : String
  currentOrder : Option Nat
deriving DecidableEq

/-- Request payload for `PUT /tables/\x7bid\x7d` (Pydantic `Table`, `id`
excluded on write). -/
structure TableReq where
  tableNumber : Int
  capacity : Int
  status : String
  currentOrder : Option Nat
deriving DecidableEq

/-- Embedded order line (Pydantic `OrderItem`). -/
structure OrderItem where
  menuItemId : Nat
  name : String
  quantity : Int
  price : Rat
  modifiers : List String
  instructions : String
deriving DecidableEq

/-- Request payload for `POST /orders` (Pydantic `Order`, `id` excluded). -/
structure OrderReq where
  orderType : String
  tableNumber : Option Int
  tokenNumber : Option Int
  items : List OrderItem
  status : String
  subtotal : Rat
  tax : Rat
  total : Rat
  paymentMethod : Option String
  paymentStatus : String
  kotSent : Bool
  syncStatus : String
deriving DecidableEq

/-- Stored `orders` document. -/
structure OrderDoc where
  id : Nat
  orderType : String
  tableNumber : Option Int
  tokenNumber : Option Int
  items : List OrderItem
  status : String
  subtotal : Rat
  tax : Rat
  total : Rat
  paymentMethod : Option String
  paymentStatus : String
  kotSent : Bool
  syncStatus : String
deriving DecidableEq

/-- Request payload for `POST /kot` (Pydantic `KOTBatch`, `id` excluded). -/
structure KOTReq where
  orderId : Nat
  orderType : String
  tableNumber : Option Int
  tokenNumber : Option Int
  items : List OrderItem
  status : String
  printerUsed : Option String
deriving DecidableEq

/-- Stored `kot_batches` document. -/
structure KOTDoc where
  id : Nat
  orderId : Nat
  orderType : String
  tableNumber : Option Int
  tokenNumber : Option Int
  items : List OrderItem
  status : String
  printerUsed : Option String
deriving DecidableEq

/-- Stored `inventory` document (Pydantic `Inventory` plus the store id). -/
structure InventoryDoc where
  id : Nat
  name : String
  category : String
  unit : String
  stock : Rat
  minThreshold : Rat
  lowStock : Bool
deriving DecidableEq

/-- Stored `inventory_transactions` document.  The source field `type` is a
Lean keyword and is rendered `txType` here. -/
structure TxDoc where
  id : Nat
  inventoryId : Nat
  txType : String
  quantity : Rat
  reason : String
  orderId : Option Nat
deriving DecidableEq

/-- The document store: one list per collection touched by the modelled
endpoints, plus the fresh-id counter standing in for ObjectId generation. -/
structure DB where
  menu_items : List MenuItemDoc
  tables : List TableDoc
  orders : List OrderDoc
  kot_batches : List KOTDoc
  inventory : List InventoryDoc
  inventory_transactions : List TxDoc
  nextId : Nat
deriving DecidableEq

/-- A Socket.IO emission.  The payload of the source events is the full
serialized document (or, for deletes, the id); the model records the
document id, which is the identifying content of the payload. -/
inductive Event where
  | orderUpdated (orderId : Nat)
  | orderDeleted (orderId : Nat)
  | kotUpdated (kotId : Nat)
  | tableUpdated (tableId : Nat)
deriving DecidableEq

/-- Room an event is published to: `broadcast_order_update`, the
`order_deleted` emit and `broadcast_table_update` target room `orders`;
`broadcast_kot_update` targets room `kitchen`. -/
def Event.room : Event → String
  | .orderUpdated _ => "orders"
  | .orderDeleted _ => "orders"
  | .kotUpdated _ => "kitchen"
  | .tableUpdated _ => "orders"

/-- A Python exception as observed by a handler's blanket
`except Exception as e` clause: either an `HTTPException(status, detail)`
raised in the body, or some other error carrying a message. -/
inductive Exc where
  | http (status : Nat) (detail : String)
  | other (msg : String)
deriving DecidableEq

/-- The string `str(e)` interpolated into the 500 response: Starlette's
`HTTPException` prints as `"status: detail"`. -/
def Exc.message : Exc → String
  | .http s d => toString s ++ ": " ++ d
  | .other m => m

/-- HTTP outcome of a handler: a 200 value or an `HTTPException` escaping
to the framework. -/
inductive Outcome (α : Type) where
  | ok (val : α)
  | httpError (status : Nat) (detail : String)
deriving DecidableEq

/-- The shared `except Exception as e: raise HTTPException(500, str(e))`
wrapper: any body exception, an `HTTPException` included, becomes a 500. -/
def catchAll {α : Type} : Except Exc α → Outcome α
  | .ok a => .ok a
  | .error e => .httpError 500 e.message

/-- Mongo `update_one(filter, \x7b$set/$inc ...\x7d)`: apply `f` to the first
element satisfying `p`; no match is a silent no-op. -/
def updateFirst {α : Type} (p : α → Bool) (f : α → α) : List α → List α
  | [] => []
  | x :: xs => if p x then f x :: xs else x :: updateFirst p f xs

/-- Mongo `delete_one(filter)`: remove the first element satisfying `p`;
no match is a silent no-op. -/
def deleteFirst {α : Type} (p : α → Bool) : List α → List α
  | [] => []
  | x :: xs => if p x then xs else x :: deleteFirst p xs

/-- Python truthiness of an optional integer field: `None` and `0` are falsy
(`not order.tokenNumber`, `and order.tableNumber` in `create_order`). -/
def pyTruthy : Option Int → Bool
  | none => false
  | some n => n != 0

/-- BSON comparison of the optional numeric `tokenNumber` field used by
`sort=[("tokenNumber", -1)]`: `null` orders below every number. -/
def tokLt : Option Int → Option Int → Bool
  | none, none => false
  | none, some _ => true
  | some _, none => false
  | some x, some y => x < y

/-- One step of scanning for the sort-maximal document: keep the incumbent
unless the candidate has a strictly greater `tokenNumber`. -/
def bestStep (best : Option OrderDoc) (o : OrderDoc) : Option OrderDoc :=
  match best with
  | none => some o
  | some b => if tokLt b.tokenNumber o.tokenNumber then some o else some b

/-- Model of `db.orders.find_one(\x7b"orderType": "takeout"\x7d,
sort=[("tokenNumber", -1)])`: a takeout order with maximal `tokenNumber`
(ties resolved as first-of-equals; the store leaves tie order unspecified,
and only the token value of the result is ever read). -/
def lastTakeout (db : DB) : Option OrderDoc :=
  (db.orders.filter (fun o => o.orderType == "takeout")).foldl bestStep none

/-- The token computation of `create_order`: `(last_order.get('tokenNumber',
0) + 1) if last_order else 1`.  The `tokenNumber` key is always present on
stored orders (Pydantic serializes it, possibly as `None`), so the `.get`
default is dead; a `None` value reaches `None + 1` and raises a `TypeError`
that the wrapper turns into a 500. -/
def nextTokenOf (db : DB) : Except Exc Int :=
  match lastTakeout db with
  | none => .ok 1
  | some last =>
    match last.tokenNumber with
    | some t => .ok (t + 1)
    | none => .error (.other "TypeError: unsupported operand NoneType + int")

/-- Token-number branch of `create_order`: generate a token iff the order is
takeout and the supplied token is falsy; otherwise keep the supplied value. -/
def tokenFor (db : DB) (o : OrderReq) : Except Exc (Option Int) :=
  if o.orderType == "takeout" && !(pyTruthy o.tokenNumber) then
    (nextTokenOf db).map (fun t => some t)
  else .ok o.tokenNumber

/-- The order document persisted by `create_order`: the request fields with
the (possibly generated) token and the store-assigned id. -/
def orderDocOf (oid : Nat) (o : OrderReq) (tok : Option Int) : OrderDoc :=
  { id := oid
    orderType := o.orderType
    tableNumber := o.tableNumber
    tokenNumber := tok
    items := o.items
    status := o.status
    subtotal := o.subtotal
    tax := o.tax
    total := o.total
    paymentMethod := o.paymentMethod
    paymentStatus := o.paymentStatus
    kotSent := o.kotSent
    syncStatus := o.syncStatus }

/-- Innermost step of the inventory-deduction loop of `create_order`: for one
ingredient of one order item, `$inc` the ingredient's stock by
`-ingredient.quantity * item.quantity` and insert one `deduct` transaction
carrying that quantity and the new order's id. -/
def deductOne (oid : Nat) (item : OrderItem) (db : DB) (ing : Ingredient) : DB :=
  let db1 := { db with
    inventory := (updateFirst (fun v => v.id == ing.ingredientId)
      (fun v => { v with stock := v.stock - ing.quantity * (item.quantity : Rat) })
      db.inventory) }
  { db1 with
    inventory_transactions := (db1.inventory_transactions ++
      [{ id := db1.nextId
         inventoryId := ing.ingredientId
         txType := "deduct"
         quantity := ing.quantity * (item.quantity : Rat)
         reason := "Order " ++ toString oid
         orderId := some oid }])
    nextId := db1.nextId + 1 }

/-- Per-item step of the deduction loop: look the order item's MenuItem up;
if it exists and its ingredient list is (Python-)truthy, run the ingredient
loop; otherwise do nothing. -/
def deductItem (oid : Nat) (db : DB) (item : OrderItem) : DB :=
  match db.menu_items.find? (fun m => m.id == item.menuItemId) with
  | some m =>
    if m.ingredients.isEmpty then db
    else m.ingredients.foldl (deductOne oid item) db
  | none => db

/-- Handler `POST /orders` (`create_order`): compute the token (a `TypeError`
there aborts with a 500 before anything is written), insert the order, occupy
the referenced table when the order is dine-in with a truthy table number,
run the inventory-deduction loop, and emit `order_updated`. -/
def create_order (db : DB) (o : OrderReq) : DB × List Event × Outcome OrderDoc :=
  match tokenFor db o with
  | .error e => (db, [], .httpError 500 e.message)
  | .ok tok =>
    let oid := db.nextId
    let newDoc := orderDocOf oid o tok
    let db1 : DB := { db with orders := db.orders ++ [newDoc], nextId := db.nextId + 1 }
    let db2 : DB :=
      if o.orderType == "dine-in" && pyTruthy o.tableNumber then
        { db1 with tables := (updateFirst (fun t => o.tableNumber == some t.tableNumber)
            (fun t => { t with status := "occupied", currentOrder := some oid })
            db1.tables) }
      else db1
    let db3 := o.items.foldl (deductItem oid) db2
    (db3, [Event.orderUpdated oid], .ok newDoc)

/-- Handler `GET /orders/\x7bid\x7d` (`get_order`): the body raises
`HTTPException(404, "Order not found")` on a lookup miss, but that raise sits
inside the `try` whose blanket `except Exception` re-raises everything as a
500 — so the 404 is converted to a 500 carrying `str(e)`. -/
def get_order (db : DB) (order_id : Nat) : Outcome OrderDoc :=
  catchAll
    (match db.orders.find? (fun o => o.id == order_id) with
     | none => .error (.http 404 "Order not found")
     | some o => .ok o)

/-- Handler `DELETE /orders/\x7bid\x7d` (`delete_order`): if the order exists
and is dine-in, free the table whose number matches the order's recorded
table number; delete the order; emit `order_deleted`; always answer
`\x7b"success": True\x7d` (modelled as the Bool `true`). -/
def delete_order (db : DB) (order_id : Nat) : DB × List Event × Bool :=
  let db1 : DB :=
    match db.orders.find? (fun o => o.id == order_id) with
    | some od =>
      if od.orderType == "dine-in" then
        { db with tables := (updateFirst (fun t => od.tableNumber == some t.tableNumber)
            (fun t => { t with status := "available", currentOrder := none })
            db.tables) }
      else db
    | none => db
  let db2 : DB := { db1 with orders := deleteFirst (fun o => o.id == order_id) db1.orders }
  (db2, [Event.orderDeleted order_id], true)

/-- The KOT document persisted by `create_kot`: the request fields with the
store-assigned id. -/
def kotDocOf (kid : Nat) (k : KOTReq) : KOTDoc :=
  { id := kid
    orderId := k.orderId
    orderType := k.orderType
    tableNumber := k.tableNumber
    tokenNumber := k.tokenNumber
    items := k.items
    status := k.status
    printerUsed := k.printerUsed }

/-- Handler `POST /kot` (`create_kot`): insert the KOT with the supplied
fields, then unconditionally set the source order's `kotSent` flag and force
its status to `preparing`, then emit `kot_updated`. -/
def create_kot (db : DB) (k : KOTReq) : DB × List Event × KOTDoc :=
  let kid := db.nextId
  let doc : KOTDoc := kotDocOf kid k
  let db1 : DB := { db with kot_batches := db.kot_batches ++ [doc], nextId := db.nextId + 1 }
  let db2 : DB := { db1 with orders := (updateFirst (fun o => o.id == k.orderId)
      (fun o => { o with kotSent := true, status := "preparing" }) db1.orders) }
  (db2, [Event.kotUpdated kid], doc)

/-- Handler `PUT /tables/\x7bid\x7d` (`update_table`): `$set` every payload
field of the table with the given store id (caller values written unchecked),
emit `table_updated`, and answer with the payload echoed back. -/
def update_table (db : DB) (table_id : Nat) (t : TableReq) : DB × List Event × TableDoc :=
  ({ db with tables := (updateFirst (fun x => x.id == table_id)
      (fun x =>
        { x with
          tableNumber := t.tableNumber
          capacity := t.capacity
          status := t.status
          currentOrder := t.currentOrder })
      db.tables) },
   [Event.tableUpdated table_id],
   { id := table_id
     tableNumber := t.tableNumber
     capacity := t.capacity
     status := t.status
     currentOrder := t.currentOrder })

/-- The 20 default tables seeded by `get_tables` on an empty collection,
numbered 1..20, capacity 4, available, no current order. -/
def defaultTables (startId : Nat) : List TableDoc :=
  (List.range 20).map (fun i =>
    { id := startId + i
      tableNumber := (i : Int) + 1
      capacity := 4
      status := "available"
      currentOrder := none })

/-- Handler `GET /tables` (`get_tables`): when the collection is empty,
`insert_many` the 20 default tables; answer with the (possibly just seeded)
collection. -/
def get_tables (db : DB) : DB × List TableDoc :=
  if db.tables.isEmpty then
    let seeded := db.tables ++ defaultTables db.nextId
    ({ db with tables := seeded, nextId := db.nextId + 20 }, seeded)
  else (db, db.tables)

/-- Handler `GET /inventory` (`get_inventory`): walk the fetched snapshot and,
for every item whose stock is at or below its threshold, persist
`lowStock := true` back to the store and patch the local copy; items above
threshold are left untouched — the flag is never cleared.  Answer with the
patched snapshot. -/
def get_inventory (db : DB) : DB × List InventoryDoc :=
  let items := db.inventory
  let db1 := items.foldl
    (fun d it =>
      if it.stock ≤ it.minThreshold then
        { d with inventory := (updateFirst (fun x => x.id == it.id)
            (fun x => { x with lowStock := true }) d.inventory) }
      else d) db
  (db1, items.map (fun it =>
    if it.stock ≤ it.minThreshold then { it with lowStock := true } else it))

/-- The transaction row inserted by `adjust_inventory` (its `orderId` key is
absent in the source dict; absent and null are indistinguishable to every
reader, both modelled as `none`). -/
def adjustTxDoc (txid : Nat) (item_id : Nat) (adjustment_type : String)
    (quantity : Rat) (reason : String) : TxDoc :=
  { id := txid
    inventoryId := item_id
    txType := adjustment_type
    quantity := quantity
    reason := reason
    orderId := none }

/-- Handler `POST /inventory/\x7bid\x7d/adjust` (`adjust_inventory`) with the
caller-supplied fields of `data` passed as parameters: the sign multiplier is
`+1` for `refill`/`adjustment` and `-1` for every other type, the stock is
`$inc`-ed by `quantity * multiplier`, one transaction with the caller's type
and (unsigned) quantity is inserted, and the refreshed item is answered. -/
def adjust_inventory (db : DB) (item_id : Nat) (adjustment_type : String)
    (quantity : Rat) (reason : String) : DB × Option InventoryDoc :=
  let multiplier : Rat :=
    if adjustment_type == "refill" || adjustment_type == "adjustment" then 1 else -1
  let db1 : DB := { db with inventory := (updateFirst (fun x => x.id == item_id)
      (fun x => { x with stock := x.stock + quantity * multiplier }) db.inventory) }
  let db2 : DB := { db1 with
    inventory_transactions := (db1.inventory_transactions ++
      [adjustTxDoc db1.nextId item_id adjustment_type quantity reason])
    nextId := db1.nextId + 1 }
  (db2, db2.inventory.find? (fun x => x.id == item_id))

/-! Observations used to state the claims. -/

/-- One step of folding the maximum token over stored takeout orders
(orders whose token is `null` contribute nothing). -/
def maxStep (acc : Option Int) (o : OrderDoc) : Option Int :=
  match o.tokenNumber with
  | some t =>
    match acc with
    | some m => some (max m t)
    | none => some t
  | none => acc

/-- The maximum token number among the takeout orders of a list, `none` when
no takeout order carries a token. -/
def maxTokList (orders : List OrderDoc) : Option Int :=
  (orders.filter (fun o => o.orderType == "takeout")).foldl maxStep none

/-- The maximum token number among stored takeout orders, `none` when no
takeout order carries a token. -/
def maxTakeoutToken (db : DB) : Option Int :=
  maxTokList db.orders

/-- Stock of the inventory item with the given id, read the way the source
reads it (first store match). -/
def invStock (db : DB) (iid : Nat) : Option Rat :=
  (db.inventory.find? (fun v => v.id == iid)).map (fun v => v.stock)

/-- Content view of an inventory transaction: the fields the spec talks
about, independent of the store-assigned transaction id. -/
def txView (t : TxDoc) : Nat × String × Rat × Option Nat :=
  (t.inventoryId, t.txType, t.quantity, t.orderId)

/-- Ingredient requirements the deduction loop will iterate for a given
MenuItem id: empty when the item is absent or its list is empty. -/
def ingsOf (menu : List MenuItemDoc) (mid : Nat) : List Ingredient :=
  match menu.find? (fun m => m.id == mid) with
  | some m => if m.ingredients.isEmpty then [] else m.ingredients
  | none => []

/-- Total stock deduction one order item causes on inventory id `iid`. -/
def ingsDeduction (item : OrderItem) (ings : List Ingredient) (iid : Nat) : Rat :=
  (ings.filterMap (fun g =>
    if g.ingredientId == iid then some (g.quantity * (item.quantity : Rat)) else none)).sum

/-- Total stock deduction an order's item list causes on inventory id `iid`:
the spec's Σ ingredientQuantity × orderItemQuantity. -/
def deductionOf (menu : List MenuItemDoc) (items : List OrderItem) (iid : Nat) : Rat :=
  (items.map (fun item => ingsDeduction item (ingsOf menu item.menuItemId) iid)).sum

/-- Content view of the `deduct` transactions an order creation must append:
one per ingredient per order item, carrying the deducted quantity and the
new order's id. -/
def deductTxViews (menu : List MenuItemDoc) (oid : Nat) (items : List OrderItem) :
    List (Nat × String × Rat × Option Nat) :=
  items.flatMap (fun item =>
    (ingsOf menu item.menuItemId).map (fun g =>
      (g.ingredientId, "deduct", g.quantity * (item.quantity : Rat), some oid)))

/-- The spec's table invariant for one document: `currentOrder` is non-null
iff the status is not `available`. -/
def tableOk (t : TableDoc) : Bool :=
  t.currentOrder.isSome == (t.status != "available")

/-- The table invariant, evaluated on a `PUT /tables` payload. -/
def reqOk (t : TableReq) : Bool :=
  t.currentOrder.isSome == (t.status != "available")

/-- The spec's table invariant over the whole collection. -/
def tablesOk (db : DB) : Bool :=
  db.tables.all tableOk

/-! Generic lemmas about the modelled store operations. -/

/-- Updating the first `p`-match with a `p`-preserving `f` commutes with
reading the first `p`-match. -/
theorem find?_updateFirst_same {α : Type} (p : α → Bool) (f : α → α)
    (hf : ∀ x, p (f x) = p x) (l : List α) :
    (updateFirst p f l).find? p = (l.find? p).map f := by
  induction l with
  | nil => rfl
  | cons x xs ih =>
    by_cases hx : p x
    · simp [updateFirst, List.find?, hx, hf]
    · simp [updateFirst, List.find?, hx, hf, ih]

/-- Updating the first `p`-match does not disturb a read keyed by a predicate
`q` that no `p`-match can satisfy, as long as `f` preserves `q`-status. -/
theorem find?_updateFirst_disjoint {α : Type} (p q : α → Bool) (f : α → α)
    (hq : ∀ x, q (f x) = q x) (hdisj : ∀ x, p x = true → q x = false) (l : List α) :
    (updateFirst p f l).find? q = l.find? q := by
  induction l with
  | nil => rfl
  | cons x xs ih =>
    by_cases hx : p x
    · simp [updateFirst, List.find?, hx, hq, hdisj x hx]
    · by_cases hqx : q x
      · simp [updateFirst, List.find?, hx, hqx]
      · simp [updateFirst, List.find?, hx, hqx, ih]

/-- A `delete_one` whose filter matches nothing is the identity. -/
theorem deleteFirst_of_no_match {α : Type} (p : α → Bool) (l : List α)
    (h : ∀ x ∈ l, p x = false) : deleteFirst p l = l := by
  induction l with
  | nil => rfl
  | cons x xs ih =>
    have hx := h x (by simp)
    simp [deleteFirst, hx, ih (fun y hy => h y (by simp [hy]))]

/-- `update_one` preserves a collection-wide property when the write always
re-establishes it. -/
theorem all_updateFirst {α : Type} (p : α → Bool) (q : α → Bool) (f : α → α)
    (hf : ∀ x, q (f x) = true) (l : List α) (hl : l.all q = true) :
    (updateFirst p f l).all q = true := by
  induction l with
  | nil => rfl
  | cons x xs ih =>
    simp only [List.all_cons, Bool.and_eq_true] at hl
    by_cases hx : p x
    · simp [updateFirst, hx, List.all_cons, hf, hl.2]
    · simp [updateFirst, hx, List.all_cons, hl.1, ih hl.2]

/-- `update_one` skips over a prefix containing no match. -/
theorem updateFirst_append_of_no_match {α : Type} (p : α → Bool) (f : α → α)
    (pre l : List α) (h : ∀ x ∈ pre, p x = false) :
    updateFirst p f (pre ++ l) = pre ++ updateFirst p f l := by
  induction pre with
  | nil => rfl
  | cons x xs ih =>
    have hx := h x (by simp)
    simp only [List.cons_append, updateFirst, hx]
    simp only [Bool.false_eq_true, if_false]
    exact congrArg (x :: ·) (ih (fun y hy => h y (by simp [hy])))

/-! Behaviour of the inventory-deduction loop of `create_order`. -/

theorem deductOne_menu_items (oid : Nat) (item : OrderItem) (d : DB) (ing : Ingredient) :
    (deductOne oid item d ing).menu_items = d.menu_items := rfl

theorem deductOne_orders (oid : Nat) (item : OrderItem) (d : DB) (ing : Ingredient) :
    (deductOne oid item d ing).orders = d.orders := rfl

theorem deductOne_tables (oid : Nat) (item : OrderItem) (d : DB) (ing : Ingredient) :
    (deductOne oid item d ing).tables = d.tables := rfl

theorem foldOne_menu_items (oid : Nat) (item : OrderItem) (ings : List Ingredient) (d : DB) :
    (ings.foldl (deductOne oid item) d).menu_items = d.menu_items := by
  induction ings generalizing d with
  | nil => rfl
  | cons g rest ih => simp [List.foldl_cons, ih, deductOne_menu_items]

theorem foldOne_orders (oid : Nat) (item : OrderItem) (ings : List Ingredient) (d : DB) :
    (ings.foldl (deductOne oid item) d).orders = d.orders := by
  induction ings generalizing d with
  | nil => rfl
  | cons g rest ih => simp [List.foldl_cons, ih, deductOne_orders]

theorem foldOne_tables (oid : Nat) (item : OrderItem) (ings : List Ingredient) (d : DB) :
    (ings.foldl (deductOne oid item) d).tables = d.tables := by
  induction ings generalizing d with
  | nil => rfl
  | cons g rest ih => simp [List.foldl_cons, ih, deductOne_tables]

theorem deductItem_menu_items (oid : Nat) (d : DB) (item : OrderItem) :
    (deductItem oid d item).menu_items = d.menu_items := by
  unfold deductItem
  cases d.menu_items.find? (fun m => m.id == item.menuItemId) with
  | none => rfl
  | some m =>
    by_cases hm : m.ingredients.isEmpty
    · simp [hm]
    · simp [hm, foldOne_menu_items]

theorem deductItem_orders (oid : Nat) (d : DB) (item : OrderItem) :
    (deductItem oid d item).orders = d.orders := by
  unfold deductItem
  cases d.menu_items.find? (fun m => m.id == item.menuItemId) with
  | none => rfl
  | some m =>
    by_cases hm : m.ingredients.isEmpty
    · simp [hm]
    · simp [hm, foldOne_orders]

theorem deductItem_tables (oid : Nat) (d : DB) (item : OrderItem) :
    (deductItem oid d item).tables = d.tables := by
  unfold deductItem
  cases d.menu_items.find? (fun m => m.id == item.menuItemId) with
  | none => rfl
  | some m =>
    by_cases hm : m.ingredients.isEmpty
    · simp [hm]
    · simp [hm, foldOne_tables]

theorem foldItems_menu_items (oid : Nat) (items : List OrderItem) (d : DB) :
    (items.foldl (deductItem oid) d).menu_items = d.menu_items := by
  induction items generalizing d with
  | nil => rfl
  | cons i rest ih => simp [List.foldl_cons, ih, deductItem_menu_items]

theorem foldItems_orders (oid : Nat) (items : List OrderItem) (d : DB) :
    (items.foldl (deductItem oid) d).orders = d.orders := by
  induction items generalizing d with
  | nil => rfl
  | cons i rest ih => simp [List.foldl_cons, ih, deductItem_orders]

theorem foldItems_tables (oid : Nat) (items : List OrderItem) (d : DB) :
    (items.foldl (deductItem oid) d).tables = d.tables := by
  induction items generalizing d with
  | nil => rfl
  | cons i rest ih => simp [List.foldl_cons, ih, deductItem_tables]

/-- Stock effect of one inner deduction step: the targeted ingredient's stock
drops by `quantity * item.quantity`, every other id is untouched. -/
theorem invStock_deductOne (oid : Nat) (item : OrderItem) (d : DB) (ing : Ingredient)
    (iid : Nat) :
    invStock (deductOne oid item d ing) iid =
      if ing.ingredientId == iid then
        (invStock d iid).map (fun s => s - ing.quantity * (item.quantity : Rat))
      else invStock d iid := by
  by_cases hid : ing.ingredientId = iid
  · subst hid
    have h := find?_updateFirst_same (fun v : InventoryDoc => v.id == ing.ingredientId)
      (fun v => { v with stock := v.stock - ing.quantity * (item.quantity : Rat) })
      (fun x => rfl) d.inventory
    simp only [invStock, deductOne, h, Option.map_map, beq_self_eq_true, if_true]
    rfl
  · have h := find?_updateFirst_disjoint
      (fun v : InventoryDoc => v.id == ing.ingredientId)
      (fun v : InventoryDoc => v.id == iid)
      (fun v => { v with stock := v.stock - ing.quantity * (item.quantity : Rat) })
      (fun x => rfl)
      (fun x hx => by
        have : x.id = ing.ingredientId := by simpa using hx
        simp [this, hid])
      d.inventory
    simp only [invStock, deductOne, h]
    simp [hid]

/-- Stock effect of the ingredient loop for one order item. -/
theorem invStock_foldOne (oid : Nat) (item : OrderItem) (ings : List Ingredient)
    (d : DB) (iid : Nat) :
    invStock (ings.foldl (deductOne oid item) d) iid =
      (invStock d iid).map (fun s => s - ingsDeduction item ings iid) := by
  induction ings generalizing d with
  | nil =>
    cases h : invStock d iid <;> simp [ingsDeduction, h]
  | cons g rest ih =>
    rw [List.foldl_cons, ih, invStock_deductOne]
    by_cases hg : g.ingredientId = iid
    · have hded : ingsDeduction item (g :: rest) iid =
          g.quantity * (item.quantity : Rat) + ingsDeduction item rest iid := by
        simp [ingsDeduction, List.filterMap_cons, hg]
      rw [hded]
      cases h : invStock d iid <;> simp [hg, h] <;> ring
    · have hded : ingsDeduction item (g :: rest) iid = ingsDeduction item rest iid := by
        simp [ingsDeduction, List.filterMap_cons, hg]
      rw [hded]
      simp [hg]

/-- Stock effect of the per-item step. -/
theorem invStock_deductItem (oid : Nat) (d : DB) (item : OrderItem) (iid : Nat) :
    invStock (deductItem oid d item) iid =
      (invStock d iid).map
        (fun s => s - ingsDeduction item (ingsOf d.menu_items item.menuItemId) iid) := by
  unfold deductItem ingsOf
  cases d.menu_items.find? (fun m => m.id == item.menuItemId) with
  | none =>
    cases h : invStock d iid <;> simp [ingsDeduction, h]
  | some m =>
    by_cases hm : m.ingredients.isEmpty
    · cases h : invStock d iid <;> simp [hm, ingsDeduction, h]
    · simp only [hm, Bool.false_eq_true, if_false]
      exact invStock_foldOne oid item m.ingredients d iid

/-- Stock effect of the whole deduction loop: each inventory id drops by
exactly the summed deduction of the order's items. -/
theorem invStock_foldItems (oid : Nat) (items : List OrderItem) (d : DB) (iid : Nat) :
    invStock (items.foldl (deductItem oid) d) iid =
      (invStock d iid).map (fun s => s - deductionOf d.menu_items items iid) := by
  induction items generalizing d with
  | nil =>
    cases h : invStock d iid <;> simp [deductionOf, h]
  | cons item rest ih =>
    rw [List.foldl_cons, ih, deductItem_menu_items, invStock_deductItem, Option.map_map]
    have hd : deductionOf d.menu_items (item :: rest) iid =
        ingsDeduction item (ingsOf d.menu_items item.menuItemId) iid +
          deductionOf d.menu_items rest iid := by
      simp [deductionOf]
    rw [hd]
    congr 1
    funext s
    simp only [Function.comp_apply]
    ring

/-- Transaction effect of the ingredient loop for one order item: one
`deduct` row per ingredient, in order. -/
theorem txViews_foldOne (oid : Nat) (item : OrderItem) (ings : List Ingredient) (d : DB) :
    ((ings.foldl (deductOne oid item) d).inventory_transactions).map txView =
      d.inventory_transactions.map txView ++
        ings.map (fun g =>
          (g.ingredientId, "deduct", g.quantity * (item.quantity : Rat), some oid)) := by
  induction ings generalizing d with
  | nil => simp
  | cons g rest ih =>
    rw [List.foldl_cons, ih]
    have : (deductOne oid item d g).inventory_transactions.map txView =
        d.inventory_transactions.map txView ++
          [(g.ingredientId, "deduct", g.quantity * (item.quantity : Rat), some oid)] := by
      simp [deductOne, txView]
    rw [this, List.map_cons, List.append_assoc]
    rfl

/-- Transaction effect of the per-item step. -/
theorem txViews_deductItem (oid : Nat) (d : DB) (item : OrderItem) :
    ((deductItem oid d item).inventory_transactions).map txView =
      d.inventory_transactions.map txView ++
        (ingsOf d.menu_items item.menuItemId).map (fun g =>
          (g.ingredientId, "deduct", g.quantity * (item.quantity : Rat), some oid)) := by
  unfold deductItem ingsOf
  cases d.menu_items.find? (fun m => m.id == item.menuItemId) with
  | none => simp
  | some m =>
    by_cases hm : m.ingredients.isEmpty
    · simp [hm]
    · simp only [hm, Bool.false_eq_true, if_false]
      exact txViews_foldOne oid item m.ingredients d

/-- Transaction effect of the whole deduction loop: exactly one `deduct`
transaction per ingredient per order item, carrying the deducted quantity and
the new order's id. -/
theorem txViews_foldItems (oid : Nat) (items : List OrderItem) (d : DB) :
    ((items.foldl (deductItem oid) d).inventory_transactions).map txView =
      d.inventory_transactions.map txView ++ deductTxViews d.menu_items oid items := by
  induction items generalizing d with
  | nil => simp [deductTxViews]
  | cons item rest ih =>
    rw [List.foldl_cons, ih, deductItem_menu_items, txViews_deductItem, List.append_assoc]
    congr 1

/-! Behaviour of the takeout token scan. -/

/-- One scan step agrees with one max-fold step on the token value. -/
theorem bestStep_bind_tok (b : Option OrderDoc) (o : OrderDoc) :
    (bestStep b o).bind OrderDoc.tokenNumber =
      maxStep (b.bind OrderDoc.tokenNumber) o := by
  cases b with
  | none =>
    cases ho : o.tokenNumber <;> simp [bestStep, maxStep, ho]
  | some x =>
    cases hx : x.tokenNumber with
    | none =>
      cases ho : o.tokenNumber <;> simp [bestStep, maxStep, tokLt, hx, ho]
    | some m =>
      cases ho : o.tokenNumber with
      | none => simp [bestStep, maxStep, tokLt, hx, ho]
      | some t =>
        rcases lt_or_ge m t with hlt | hge
        · simp [bestStep, maxStep, tokLt, hx, ho, hlt, max_eq_right hlt.le]
        · simp [bestStep, maxStep, tokLt, hx, ho, not_lt.mpr hge, max_eq_left hge]

/-- The token of the sort-maximal document is the fold of `max` over the
scanned documents' tokens. -/
theorem foldl_bestStep_bind_tok (l : List OrderDoc) (b : Option OrderDoc) :
    (l.foldl bestStep b).bind OrderDoc.tokenNumber =
      l.foldl maxStep (b.bind OrderDoc.tokenNumber) := by
  induction l generalizing b with
  | nil => rfl
  | cons o rest ih => rw [List.foldl_cons, List.foldl_cons, ih, bestStep_bind_tok]

/-- The scan's result comes from its accumulator or from the list. -/
theorem foldl_bestStep_mem (l : List OrderDoc) (b : Option OrderDoc) (x : OrderDoc)
    (h : l.foldl bestStep b = some x) : b = some x ∨ x ∈ l := by
  induction l generalizing b with
  | nil => exact Or.inl h
  | cons o rest ih =>
    rw [List.foldl_cons] at h
    rcases ih (bestStep b o) h with hb | hmem
    · cases b with
      | none =>
        simp only [bestStep] at hb
        exact Or.inr (by simp [← Option.some_inj.mp hb])
      | some y =>
        simp only [bestStep] at hb
        by_cases hc : tokLt y.tokenNumber o.tokenNumber
        · simp only [hc, if_true] at hb
          exact Or.inr (by simp [← Option.some_inj.mp hb])
        · simp only [hc, if_false] at hb
          exact Or.inl hb
    · exact Or.inr (List.mem_cons_of_mem o hmem)

/-- The scan never loses a non-empty accumulator. -/
theorem foldl_bestStep_isSome (l : List OrderDoc) (b : Option OrderDoc)
    (hb : b.isSome = true) : (l.foldl bestStep b).isSome = true := by
  induction l generalizing b with
  | nil => exact hb
  | cons o rest ih =>
    rw [List.foldl_cons]
    apply ih
    cases b with
    | none => rfl
    | some y =>
      simp only [bestStep]
      by_cases hc : tokLt y.tokenNumber o.tokenNumber <;> simp [hc]

/-- When every stored takeout order carries a token, the token computation of
`create_order` succeeds and produces one plus the maximum stored token
(one when no takeout order exists). -/
theorem nextTokenOf_eq (db : DB)
    (h : ∀ od ∈ db.orders, od.orderType = "takeout" → od.tokenNumber.isSome = true) :
    nextTokenOf db = .ok ((maxTakeoutToken db).getD 0 + 1) := by
  have hbind := foldl_bestStep_bind_tok
    (db.orders.filter (fun o => o.orderType == "takeout")) none
  simp only [Option.none_bind] at hbind
  unfold nextTokenOf
  cases hl : lastTakeout db with
  | none =>
    have hmax : maxTakeoutToken db = none := by
      unfold maxTakeoutToken maxTokList
      rw [← hbind]
      rw [lastTakeout] at hl
      rw [hl]
      rfl
    rw [hmax]
    rfl
  | some last =>
    have hmem : last ∈ db.orders.filter (fun o => o.orderType == "takeout") := by
      rcases foldl_bestStep_mem _ none last (by rw [lastTakeout] at hl; exact hl) with h0 | h0
      · cases h0
      · exact h0
    have hlast : last ∈ db.orders ∧ last.orderType = "takeout" := by
      rw [List.mem_filter] at hmem
      exact ⟨hmem.1, by simpa using hmem.2⟩
    have hsome := h last hlast.1 hlast.2
    rcases Option.isSome_iff_exists.mp hsome with ⟨t, ht⟩
    have hmax : maxTakeoutToken db = some t := by
      unfold maxTakeoutToken maxTokList
      rw [← hbind]
      rw [lastTakeout] at hl
      rw [hl]
      simpa using ht
    rw [hmax]
    simp [ht]

/-- Appending a takeout order folds one extra `maxStep` onto the stored
maximum. -/
theorem maxTokList_snoc (orders : List OrderDoc) (nd : OrderDoc)
    (h : nd.orderType = "takeout") :
    maxTokList (orders ++ [nd]) = maxStep (maxTokList orders) nd := by
  unfold maxTokList
  rw [List.filter_append, List.foldl_append]
  simp [h]

/-! Reduction of `create_order` once the token computation is known to
succeed, and its component-wise consequences. -/

theorem create_order_eq (db : DB) (o : OrderReq) (tok : Option Int)
    (htok : tokenFor db o = .ok tok) :
    create_order db o =
      (o.items.foldl (deductItem db.nextId)
        (if o.orderType == "dine-in" && pyTruthy o.tableNumber then
          { db with
            orders := db.orders ++ [orderDocOf db.nextId o tok]
            tables := (updateFirst (fun t => o.tableNumber == some t.tableNumber)
              (fun t => { t with status := "occupied", currentOrder := some db.nextId })
              db.tables)
            nextId := db.nextId + 1 }
         else
          { db with
            orders := db.orders ++ [orderDocOf db.nextId o tok]
            nextId := db.nextId + 1 }),
       [Event.orderUpdated db.nextId],
       .ok (orderDocOf db.nextId o tok)) := by
  unfold create_order
  rw [htok]

/-- The store state after the insert and table steps of `create_order`,
before the deduction loop; a proof-side decomposition of `create_order_eq`. -/
def createBase (db : DB) (o : OrderReq) (tok : Option Int) : DB :=
  if o.orderType == "dine-in" && pyTruthy o.tableNumber then
    { db with
      orders := db.orders ++ [orderDocOf db.nextId o tok]
      tables := (updateFirst (fun t => o.tableNumber == some t.tableNumber)
        (fun t => { t with status := "occupied", currentOrder := some db.nextId })
        db.tables)
      nextId := db.nextId + 1 }
  else
    { db with
      orders := db.orders ++ [orderDocOf db.nextId o tok]
      nextId := db.nextId + 1 }

theorem create_order_db (db : DB) (o : OrderReq) (tok : Option Int)
    (htok : tokenFor db o = .ok tok) :
    (create_order db o).1 = o.items.foldl (deductItem db.nextId) (createBase db o tok) := by
  rw [create_order_eq db o tok htok]
  unfold createBase
  split <;> rfl

theorem create_order_error_db (db : DB) (o : OrderReq) (e : Exc)
    (he : tokenFor db o = .error e) : (create_order db o).1 = db := by
  unfold create_order
  rw [he]

theorem createBase_menu_items (db : DB) (o : OrderReq) (tok : Option Int) :
    (createBase db o tok).menu_items = db.menu_items := by
  unfold createBase
  split <;> rfl

theorem createBase_inventory (db : DB) (o : OrderReq) (tok : Option Int) :
    (createBase db o tok).inventory = db.inventory := by
  unfold createBase
  split <;> rfl

theorem createBase_txs (db : DB) (o : OrderReq) (tok : Option Int) :
    (createBase db o tok).inventory_transactions = db.inventory_transactions := by
  unfold createBase
  split <;> rfl

theorem createBase_tables_of_cond_false (db : DB) (o : OrderReq) (tok : Option Int)
    (hc : (o.orderType == "dine-in" && pyTruthy o.tableNumber) = false) :
    (createBase db o tok).tables = db.tables := by
  unfold createBase
  rw [hc]
  rfl

theorem createBase_tables_of_cond_true (db : DB) (o : OrderReq) (tok : Option Int)
    (hc : (o.orderType == "dine-in" && pyTruthy o.tableNumber) = true) :
    (createBase db o tok).tables =
      updateFirst (fun t => o.tableNumber == some t.tableNumber)
        (fun t => { t with status := "occupied", currentOrder := some db.nextId })
        db.tables := by
  unfold createBase
  rw [hc]
  rfl

theorem create_order_resp (db : DB) (o : OrderReq) (tok : Option Int)
    (htok : tokenFor db o = .ok tok) :
    (create_order db o).2.2 = .ok (orderDocOf db.nextId o tok) := by
  rw [create_order_eq db o tok htok]

theorem create_order_events (db : DB) (o : OrderReq) (tok : Option Int)
    (htok : tokenFor db o = .ok tok) :
    (create_order db o).2.1 = [Event.orderUpdated db.nextId] := by
  rw [create_order_eq db o tok htok]

theorem create_order_orders (db : DB) (o : OrderReq) (tok : Option Int)
    (htok : tokenFor db o = .ok tok) :
    (create_order db o).1.orders = db.orders ++ [orderDocOf db.nextId o tok] := by
  rw [create_order_eq db o tok htok]
  simp only [foldItems_orders]
  split <;> rfl

theorem create_order_menu_items (db : DB) (o : OrderReq) (tok : Option Int)
    (htok : tokenFor db o = .ok tok) :
    (create_order db o).1.menu_items = db.menu_items := by
  rw [create_order_eq db o tok htok]
  simp only [foldItems_menu_items]
  split <;> rfl

/-! Claim theorems. -/

/-- C1: a takeout order created via POST /orders without a supplied token is
assigned one plus the maximum token among previously stored takeout orders
(one when no takeout order exists); afterwards that token is the new stored
maximum and every stored takeout order still carries a token, so a sequential
run issues strictly increasing, gap-free tokens. -/
theorem takeout_token_assignment (db : DB) (o : OrderReq)
    (h1 : o.orderType = "takeout") (h2 : o.tokenNumber = none)
    (h3 : ∀ od ∈ db.orders, od.orderType = "takeout" → od.tokenNumber.isSome = true) :
    (create_order db o).2.2 =
        Outcome.ok (orderDocOf db.nextId o (some ((maxTakeoutToken db).getD 0 + 1)))
      ∧ maxTakeoutToken (create_order db o).1 =
          some ((maxTakeoutToken db).getD 0 + 1)
      ∧ ∀ od ∈ (create_order db o).1.orders, od.orderType = "takeout" →
          od.tokenNumber.isSome = true := by
  have htok : tokenFor db o = .ok (some ((maxTakeoutToken db).getD 0 + 1)) := by
    unfold tokenFor
    rw [nextTokenOf_eq db h3]
    simp [h1, h2, pyTruthy, Except.map]
  have horders := create_order_orders db o _ htok
  refine ⟨create_order_resp db o _ htok, ?_, ?_⟩
  · have e1 : maxTakeoutToken (create_order db o).1 =
        maxStep (maxTakeoutToken db)
          (orderDocOf db.nextId o (some ((maxTakeoutToken db).getD 0 + 1))) := by
      show maxTokList (create_order db o).1.orders = _
      rw [horders, maxTokList_snoc _ _ h1]
      rfl
    rw [e1]
    cases hm : maxTakeoutToken db with
    | none => simp [maxStep, orderDocOf]
    | some m =>
      simp [maxStep, orderDocOf, max_eq_right (by omega : m ≤ m + 1)]
  · intro od hod htk
    rw [horders] at hod
    rcases List.mem_append.mp hod with hmem | hmem
    · exact h3 od hmem htk
    · have : od = orderDocOf db.nextId o (some ((maxTakeoutToken db).getD 0 + 1)) := by
        simpa using hmem
      rw [this]
      rfl

/-- C2: an order creation (whenever the token step succeeds) decreases every
inventory id's stock by exactly the sum over order items of ingredientQuantity
× orderItemQuantity, and appends exactly one `deduct` transaction per
ingredient per order item, carrying that quantity and the new order's id. -/
theorem order_inventory_deduction (db : DB) (o : OrderReq) (tok : Option Int)
    (iid : Nat) (s : Rat)
    (htok : tokenFor db o = .ok tok)
    (hs : invStock db iid = some s) :
    invStock (create_order db o).1 iid =
        some (s - deductionOf db.menu_items o.items iid)
    ∧ ((create_order db o).1.inventory_transactions).map txView =
        db.inventory_transactions.map txView ++
          deductTxViews db.menu_items db.nextId o.items := by
  rw [create_order_db db o tok htok]
  constructor
  · rw [invStock_foldItems, createBase_menu_items]
    have hb : invStock (createBase db o tok) iid = invStock db iid := by
      unfold invStock
      rw [createBase_inventory]
    rw [hb, hs]
    rfl
  · rw [txViews_foldItems, createBase_menu_items, createBase_txs]

/-- C3: a dine-in order created for a (positive) table number whose first
matching table is available leaves that table occupied with `currentOrder`
set to the new order's id. -/
theorem dinein_occupies_table (db : DB) (o : OrderReq) (n : Int) (T : TableDoc)
    (h1 : o.orderType = "dine-in") (h2 : o.tableNumber = some n) (h3 : 0 < n)
    (hT : db.tables.find? (fun t => o.tableNumber == some t.tableNumber) = some T)
    (hA : T.status = "available") :
    (create_order db o).1.tables.find? (fun t => o.tableNumber == some t.tableNumber) =
      some { T with status := "occupied", currentOrder := some db.nextId } := by
  have htok : tokenFor db o = .ok o.tokenNumber := by
    unfold tokenFor
    simp [h1]
  have hc : (o.orderType == "dine-in" && pyTruthy o.tableNumber) = true := by
    rw [h1, h2]
    simp [pyTruthy]
    omega
  rw [create_order_db db o o.tokenNumber htok]
  unfold invStock at *
  rw [show (o.items.foldl (deductItem db.nextId) (createBase db o o.tokenNumber)).tables =
        (createBase db o o.tokenNumber).tables from foldItems_tables _ _ _,
      createBase_tables_of_cond_true db o o.tokenNumber hc,
      find?_updateFirst_same (fun t => o.tableNumber == some t.tableNumber)
        (fun t => { t with status := "occupied", currentOrder := some db.nextId })
        (fun x => rfl) db.tables,
      hT]
  rfl

/-- C4: creating a KOT persists it with the supplied fields and the fresh id,
answers that document, and sets the source order's `kotSent` flag and
`preparing` status with no check on the order's prior status. -/
theorem kot_marks_order_preparing (db : DB) (k : KOTReq) (O : OrderDoc)
    (hO : db.orders.find? (fun x => x.id == k.orderId) = some O) :
    (create_kot db k).1.kot_batches = db.kot_batches ++ [kotDocOf db.nextId k]
    ∧ (create_kot db k).2.2 = kotDocOf db.nextId k
    ∧ (create_kot db k).1.orders.find? (fun x => x.id == k.orderId) =
        some { O with kotSent := true, status := "preparing" } := by
  refine ⟨rfl, rfl, ?_⟩
  show (updateFirst (fun o => o.id == k.orderId)
      (fun o => { o with kotSent := true, status := "preparing" }) db.orders).find?
      (fun x => x.id == k.orderId) = _
  rw [find?_updateFirst_same (fun o : OrderDoc => o.id == k.orderId)
        (fun o => { o with kotSent := true, status := "preparing" })
        (fun x => rfl) db.orders,
      hO]
  rfl

/-- C5: an inventory adjustment of quantity q adds q to stock for types
`refill` and `adjustment`, subtracts q for type `wastage` (the sign is fixed
by the type), and appends exactly one transaction with that type and
quantity. -/
theorem inventory_adjust_effect (db : DB) (iid : Nat) (ty : String) (q : Rat)
    (r : String) (s : Rat)
    (hs : invStock db iid = some s) :
    ((ty = "refill" ∨ ty = "adjustment") →
        invStock (adjust_inventory db iid ty q r).1 iid = some (s + q))
    ∧ (ty = "wastage" →
        invStock (adjust_inventory db iid ty q r).1 iid = some (s - q))
    ∧ (adjust_inventory db iid ty q r).1.inventory_transactions =
        db.inventory_transactions ++ [adjustTxDoc db.nextId iid ty q r] := by
  have hstock : ∀ m : Rat,
      (if ty == "refill" || ty == "adjustment" then (1 : Rat) else -1) = m →
      invStock (adjust_inventory db iid ty q r).1 iid = some (s + q * m) := by
    intro m hm
    show ((updateFirst (fun x => x.id == iid)
        (fun x => { x with stock := x.stock + q *
          (if ty == "refill" || ty == "adjustment" then (1 : Rat) else -1) })
        db.inventory).find? (fun v => v.id == iid)).map (fun v => v.stock) = _
    rw [hm, find?_updateFirst_same (fun x : InventoryDoc => x.id == iid)
        (fun x => { x with stock := x.stock + q * m })
        (fun x => rfl) db.inventory]
    have : (db.inventory.find? (fun v => v.id == iid)).map (fun v => v.stock) = some s := hs
    cases hf : db.inventory.find? (fun v => v.id == iid) with
    | none => rw [hf] at this; cases this
    | some v =>
      rw [hf] at this
      have hv : v.stock = s := by simpa using this
      simp [hv]
  refine ⟨?_, ?_, rfl⟩
  · intro hty
    have hq := hstock 1 (by rcases hty with h | h <;> simp [h])
    rw [hq, mul_one]
  · intro hty
    have hq := hstock (-1) (by simp [hty])
    rw [hq]
    congr 1
    ring

/-! Behaviour of the low-stock write-back pass of `get_inventory`. -/

/-- The per-item patch `get_inventory` performs: set `lowStock` when the
stock is at or below the threshold, otherwise leave the document alone. -/
def lowFlagSet (it : InventoryDoc) : InventoryDoc :=
  if it.stock ≤ it.minThreshold then { it with lowStock := true } else it

theorem lowFlagSet_id (it : InventoryDoc) : (lowFlagSet it).id = it.id := by
  unfold lowFlagSet
  split <;> rfl

/-- Invariant of the write-back walk: once a prefix of the snapshot has been
processed (and hence patched in the store), processing the rest patches the
rest, provided ids are unique (as Mongo guarantees for `_id`). -/
theorem getInv_fold (rest : List InventoryDoc) (pre : List InventoryDoc) (d : DB)
    (hids : ((pre ++ rest).map (fun x => x.id)).Nodup)
    (hd : d.inventory = pre.map lowFlagSet ++ rest) :
    ((rest.foldl (fun d it =>
        if it.stock ≤ it.minThreshold then
          { d with inventory := (updateFirst (fun x => x.id == it.id)
              (fun x => { x with lowStock := true }) d.inventory) }
        else d) d).inventory) = pre.map lowFlagSet ++ rest.map lowFlagSet := by
  induction rest generalizing pre d with
  | nil => simpa using hd
  | cons it rest ih =>
    have hnotin : ∀ y ∈ pre.map lowFlagSet, ((fun x : InventoryDoc => x.id == it.id) y) = false := by
      intro y hy
      rcases List.mem_map.mp hy with ⟨z, hz, rfl⟩
      have hzid : z.id ≠ it.id := by
        have hn := hids
        rw [List.map_append, List.nodup_append] at hn
        have hdisj := hn.2.2
        intro he
        exact hdisj (List.mem_map_of_mem _ hz) (by simp [← he])
      simp [lowFlagSet_id, hzid]
    have hids' : (((pre ++ [it]) ++ rest).map (fun x => x.id)).Nodup := by
      have : (pre ++ [it]) ++ rest = pre ++ it :: rest := by simp
      rw [this]
      exact hids
    rw [List.foldl_cons]
    by_cases hlow : it.stock ≤ it.minThreshold
    · have hstep : ({ d with inventory := (updateFirst (fun x : InventoryDoc => x.id == it.id)
          (fun x => { x with lowStock := true }) d.inventory) } : DB).inventory =
          (pre ++ [it]).map lowFlagSet ++ rest := by
        show updateFirst (fun x : InventoryDoc => x.id == it.id)
            (fun x => { x with lowStock := true }) d.inventory = _
        rw [hd, updateFirst_append_of_no_match _ _ _ _ hnotin]
        have hit : updateFirst (fun x : InventoryDoc => x.id == it.id)
            (fun x => { x with lowStock := true }) (it :: rest) =
            lowFlagSet it :: rest := by
          simp [updateFirst, lowFlagSet, hlow]
        rw [hit]
        simp
      have := ih (pre ++ [it])
        ({ d with inventory := (updateFirst (fun x : InventoryDoc => x.id == it.id)
            (fun x => { x with lowStock := true }) d.inventory) }) hids' hstep
      simp only [hlow, if_true] at *
      rw [this]
      simp
    · have hstep : d.inventory = (pre ++ [it]).map lowFlagSet ++ rest := by
        rw [hd]
        have : lowFlagSet it = it := by simp [lowFlagSet, hlow]
        simp [this]
      have := ih (pre ++ [it]) d hids' hstep
      simp only [hlow, if_false] at *
      rw [this]
      simp

/-! Remaining claim theorems. -/

/-- C6 (code bug): reading a missing order does not surface the coded 404 —
the `HTTPException(404, "Order not found")` raised in the body is swallowed
by the handler's blanket `except Exception` and re-raised as a 500 carrying
`str(e)`.  Evaluated here on an empty store at id 7. -/
theorem get_order_missing_becomes_500 :
    get_order
      { menu_items := [], tables := [], orders := [], kot_batches := []
        inventory := [], inventory_transactions := [], nextId := 1 } 7 =
      Outcome.httpError 500 "404: Order not found" := by
  rfl

/-- C10: deleting a well-formed order id that matches no stored order still
succeeds: the store is left unchanged, the response is success, and an
`order_deleted` event carrying the id is still published to the `orders`
room. -/
theorem delete_missing_order_succeeds (db : DB) (oid : Nat)
    (h : db.orders.find? (fun x => x.id == oid) = none) :
    delete_order db oid = (db, [Event.orderDeleted oid], true)
    ∧ Event.room (Event.orderDeleted oid) = "orders" := by
  refine ⟨?_, rfl⟩
  unfold delete_order
  rw [h]
  have hall : ∀ x ∈ db.orders, (fun o : OrderDoc => o.id == oid) x = false := by
    intro x hx
    have := List.find?_eq_none.mp h x hx
    simpa using this
  show (({ db with orders := deleteFirst (fun o => o.id == oid) db.orders } : DB),
      [Event.orderDeleted oid], true) = _
  rw [deleteFirst_of_no_match _ _ hall]

/-- The seeded default tables all satisfy the table invariant. -/
theorem defaultTables_ok (s : Nat) : (defaultTables s).all tableOk = true := by
  simp [defaultTables, List.all_eq_true, tableOk]

/-- C7 (amended): the table invariant (currentOrder non-null iff status not
available) holds for seeded tables and is preserved by order creation and
order deletion; PUT /tables preserves it only when the caller-supplied
payload itself satisfies it, since the handler writes the payload's status
and currentOrder unchecked. -/
theorem table_invariant_preservation (db : DB) (o : OrderReq) (oid tid : Nat)
    (t : TableReq) (h : tablesOk db = true) :
    tablesOk (get_tables db).1 = true
    ∧ tablesOk (create_order db o).1 = true
    ∧ tablesOk (delete_order db oid).1 = true
    ∧ (reqOk t = true → tablesOk (update_table db tid t).1 = true) := by
  refine ⟨?_, ?_, ?_, ?_⟩
  · unfold get_tables
    by_cases he : db.tables.isEmpty
    · rw [if_pos he]
      show (db.tables ++ defaultTables db.nextId).all tableOk = true
      rw [List.all_append]
      unfold tablesOk at h
      rw [h, defaultTables_ok]
      rfl
    · rw [if_neg he]
      exact h
  · cases he : tokenFor db o with
    | error e =>
      rw [create_order_error_db db o e he]
      exact h
    | ok tok =>
      rw [create_order_db db o tok he]
      unfold tablesOk
      rw [foldItems_tables]
      by_cases hc : (o.orderType == "dine-in" && pyTruthy o.tableNumber) = true
      · rw [createBase_tables_of_cond_true db o tok hc]
        exact all_updateFirst (fun x => o.tableNumber == some x.tableNumber) tableOk
          (fun x => { x with status := "occupied", currentOrder := some db.nextId })
          (fun x => rfl) db.tables h
      · rw [createBase_tables_of_cond_false db o tok
          (by simpa using hc)]
        exact h
  · cases hfind : db.orders.find? (fun x => x.id == oid) with
    | none =>
      have ht : (delete_order db oid).1.tables = db.tables := by
        unfold delete_order
        rw [hfind]
      unfold tablesOk
      rw [ht]
      exact h
    | some od =>
      by_cases hd : (od.orderType == "dine-in") = true
      · have ht : (delete_order db oid).1.tables =
            updateFirst (fun x => od.tableNumber == some x.tableNumber)
              (fun x => { x with status := "available", currentOrder := none })
              db.tables := by
          unfold delete_order
          simp [hfind, hd]
        unfold tablesOk
        rw [ht]
        exact all_updateFirst (fun x => od.tableNumber == some x.tableNumber) tableOk
          (fun x => { x with status := "available", currentOrder := none })
          (fun x => rfl) db.tables h
      · have ht : (delete_order db oid).1.tables = db.tables := by
          unfold delete_order
          simp [hfind, hd]
        unfold tablesOk
        rw [ht]
        exact h
  · intro hreq
    unfold update_table tablesOk
    exact all_updateFirst (fun x => x.id == tid) tableOk
      (fun x =>
        { x with
          tableNumber := t.tableNumber
          capacity := t.capacity
          status := t.status
          currentOrder := t.currentOrder })
      (fun x => hreq) db.tables h

/-- C8 (amended): a GET /inventory pass patches exactly the items whose
stock is at or below their threshold, setting `lowStock` true on them and
persisting that; items above threshold keep their previous flag — the read
never clears a stale `lowStock`.  The response is the patched snapshot. -/
theorem get_inventory_sets_low_flags (db : DB)
    (h : (db.inventory.map (fun x => x.id)).Nodup) :
    (get_inventory db).1.inventory = db.inventory.map lowFlagSet
    ∧ (get_inventory db).2 = db.inventory.map lowFlagSet
    ∧ ∀ it, (lowFlagSet it).lowStock =
        (decide (it.stock ≤ it.minThreshold) || it.lowStock) := by
  refine ⟨?_, rfl, ?_⟩
  · exact getInv_fold db.inventory [] db (by simpa using h) (by simp)
  · intro it
    unfold lowFlagSet
    by_cases hl : it.stock ≤ it.minThreshold <;> simp [hl]

/-- C9 (amended): a dine-in order posted without a table number is not
rejected: the order is accepted and persisted exactly as supplied (the
table-number field is optional in the request model and no handler check
exists), and no table document is modified. -/
theorem dinein_without_table_accepted (db : DB) (o : OrderReq)
    (h1 : o.orderType = "dine-in") (h2 : o.tableNumber = none) :
    (create_order db o).2.2 = Outcome.ok (orderDocOf db.nextId o o.tokenNumber)
    ∧ (create_order db o).1.orders =
        db.orders ++ [orderDocOf db.nextId o o.tokenNumber]
    ∧ (create_order db o).1.tables = db.tables := by
  have htok : tokenFor db o = .ok o.tokenNumber := by
    unfold tokenFor
    simp [h1]
  refine ⟨create_order_resp db o _ htok, create_order_orders db o _ htok, ?_⟩
  rw [create_order_db db o _ htok, foldItems_tables,
      createBase_tables_of_cond_false db o _ (by simp [h2, pyTruthy])]

/-! Concrete sample data for witnesses and counterexamples. -/

/-- An empty store with the id counter at 1. -/
def dbEmpty : DB :=
  { menu_items := []
    tables := []
    orders := []
    kot_batches := []
    inventory := []
    inventory_transactions := []
    nextId := 1 }

/-- A takeout checkout request with no supplied token and no items. -/
def takeoutReq : OrderReq :=
  { orderType := "takeout"
    tableNumber := none
    tokenNumber := none
    items := []
    status := "pending"
    subtotal := 0
    tax := 0
    total := 0
    paymentMethod := none
    paymentStatus := "unpaid"
    kotSent := false
    syncStatus := "synced" }

/-- Order line: three portions of menu item 2. -/
def pastaItem : OrderItem := ⟨2, "Pasta", 3, 100, [], ""⟩

/-- Menu item 2, requiring 2 kg of inventory item 1 per portion. -/
def menuPasta : MenuItemDoc := ⟨2, "Pasta", "Main", 100, 10, false, [⟨1, 2, "kg"⟩]⟩

/-- Inventory item 1 with 50 kg in stock. -/
def invFlour : InventoryDoc := ⟨1, "Flour", "Dry", "kg", 50, 5, false⟩

/-- Store holding `menuPasta` and `invFlour`. -/
def dbStocked : DB :=
  { menu_items := [menuPasta]
    tables := []
    orders := []
    kot_batches := []
    inventory := [invFlour]
    inventory_transactions := []
    nextId := 3 }

/-- Takeout request with a supplied token and one pasta line. -/
def pastaOrder : OrderReq :=
  { takeoutReq with tokenNumber := some 5, items := [pastaItem] }

/-- An available table numbered 3. -/
def table3 : TableDoc := ⟨1, 3, 4, "available", none⟩

/-- Store holding only `table3`. -/
def dbTable : DB := { dbEmpty with tables := [table3], nextId := 2 }

/-- Dine-in request for table 3. -/
def dineinReq : OrderReq :=
  { takeoutReq with orderType := "dine-in", tableNumber := some 3 }

/-- A stored dine-in order with id 1. -/
def storedOrder : OrderDoc := orderDocOf 1 dineinReq none

/-- Store holding only `storedOrder`. -/
def dbOrder : DB := { dbEmpty with orders := [storedOrder], nextId := 2 }

/-- KOT request sourced from order 1. -/
def kotReq1 : KOTReq := ⟨1, "dine-in", some 3, none, [], "pending", none⟩

/-- Dine-in request with no table number. -/
def dineinNoTable : OrderReq := { takeoutReq with orderType := "dine-in" }

/-- PUT /tables payload marking a table occupied while clearing its order:
violates the invariant. -/
def occupiedNoOrder : TableReq := ⟨1, 4, "occupied", none⟩

/-- PUT /tables payload satisfying the invariant. -/
def availableReq : TableReq := ⟨2, 4, "available", none⟩

/-- Store with one available table of id 1. -/
def dbOneTable : DB := { dbEmpty with tables := [⟨1, 1, 4, "available", none⟩], nextId := 2 }

/-- Inventory item 1 at zero stock, correctly flagged low. -/
def lowFlour : InventoryDoc := ⟨1, "Flour", "Dry", "kg", 0, 1, true⟩

/-- Store holding only `lowFlour`. -/
def dbLowSeed : DB := { dbEmpty with inventory := [lowFlour], nextId := 2 }

/-- Inventory item 1 after a refill of 5: stock 5, threshold 1, but the
`lowStock` flag still true. -/
def staleFlour : InventoryDoc := ⟨1, "Flour", "Dry", "kg", 5, 1, true⟩

/-! Counterexamples for the corrected claims. -/

/-- C7 counterexample: from a store satisfying the table invariant, a single
PUT /tables with status `occupied` and no current order leaves the store
violating it — the handler writes the caller's fields unchecked. -/
theorem put_breaks_table_invariant :
    tablesOk dbOneTable = true
    ∧ tablesOk (update_table dbOneTable 1 occupiedNoOrder).1 = false :=
  ⟨rfl, rfl⟩

/-- C8 counterexample: refilling a low item above its threshold (which, per
`adjust_inventory`, raises the stock without touching the flag) and then
listing the inventory leaves the stored `lowStock` flag true while
stock ≤ minThreshold is false — the read does not clear the flag, so after
the GET the flag does not equal the predicate. -/
theorem lowstock_flag_not_cleared :
    (adjust_inventory dbLowSeed 1 "refill" 5 "restock").1.inventory = [staleFlour]
    ∧ ((get_inventory (adjust_inventory dbLowSeed 1 "refill" 5 "restock").1).1.inventory.all
        (fun it => it.lowStock == decide (it.stock ≤ it.minThreshold))) = false := by
  have hadj : (adjust_inventory dbLowSeed 1 "refill" 5 "restock").1.inventory =
      [staleFlour] := by
    show updateFirst (fun x => x.id == 1)
        (fun x => { x with stock := x.stock + 5 *
          (if ("refill" == "refill" || "refill" == "adjustment") then (1 : Rat) else -1) })
        [lowFlour] = [staleFlour]
    norm_num [updateFirst, lowFlour, staleFlour]
  refine ⟨hadj, ?_⟩
  have hfold : (get_inventory (adjust_inventory dbLowSeed 1 "refill" 5 "restock").1).1.inventory =
      ([] : List InventoryDoc).map lowFlagSet ++
        ((adjust_inventory dbLowSeed 1 "refill" 5 "restock").1.inventory).map lowFlagSet :=
    getInv_fold _ [] _ (by rw [List.nil_append, hadj]; decide) (by simp)
  rw [hfold, hadj]
  rfl

/-- C9 counterexample: a dine-in order without a table number is not
rejected — it is persisted and answered with 200, with no validation
error. -/
theorem dinein_without_table_persisted :
    (create_order dbEmpty dineinNoTable).1.orders = [orderDocOf 1 dineinNoTable none]
    ∧ (create_order dbEmpty dineinNoTable).2.2 =
        Outcome.ok (orderDocOf 1 dineinNoTable none) :=
  ⟨rfl, rfl⟩

/-! Witnesses instantiating each hypothesis-bearing claim theorem. -/

/-- Witness for C1 at the empty store. -/
theorem takeout_token_assignment_witness :
    (takeoutReq.orderType = "takeout" ∧ takeoutReq.tokenNumber = none ∧
      (∀ od ∈ dbEmpty.orders, od.orderType = "takeout" → od.tokenNumber.isSome = true))
    ∧ ((create_order dbEmpty takeoutReq).2.2 =
        Outcome.ok (orderDocOf dbEmpty.nextId takeoutReq
          (some ((maxTakeoutToken dbEmpty).getD 0 + 1)))
      ∧ maxTakeoutToken (create_order dbEmpty takeoutReq).1 =
          some ((maxTakeoutToken dbEmpty).getD 0 + 1)
      ∧ ∀ od ∈ (create_order dbEmpty takeoutReq).1.orders, od.orderType = "takeout" →
          od.tokenNumber.isSome = true) :=
  ⟨⟨rfl, rfl, by simp [dbEmpty]⟩,
   takeout_token_assignment dbEmpty takeoutReq rfl rfl (by simp [dbEmpty])⟩

/-- Witness for C2 at a store with one ingredient-bearing menu item. -/
theorem order_inventory_deduction_witness :
    (tokenFor dbStocked pastaOrder = .ok (some 5) ∧ invStock dbStocked 1 = some 50)
    ∧ (invStock (create_order dbStocked pastaOrder).1 1 =
          some (50 - deductionOf dbStocked.menu_items pastaOrder.items 1)
      ∧ ((create_order dbStocked pastaOrder).1.inventory_transactions).map txView =
          dbStocked.inventory_transactions.map txView ++
            deductTxViews dbStocked.menu_items dbStocked.nextId pastaOrder.items) :=
  ⟨⟨rfl, rfl⟩, order_inventory_deduction dbStocked pastaOrder (some 5) 1 50 rfl rfl⟩

/-- Witness for C3 at a store with one available table. -/
theorem dinein_occupies_table_witness :
    (dineinReq.orderType = "dine-in" ∧ dineinReq.tableNumber = some 3 ∧ (0 : Int) < 3 ∧
      dbTable.tables.find? (fun t => dineinReq.tableNumber == some t.tableNumber) =
        some table3 ∧
      table3.status = "available")
    ∧ (create_order dbTable dineinReq).1.tables.find?
        (fun t => dineinReq.tableNumber == some t.tableNumber) =
        some { table3 with status := "occupied", currentOrder := some dbTable.nextId } :=
  ⟨⟨rfl, rfl, by decide, rfl, rfl⟩,
   dinein_occupies_table dbTable dineinReq 3 table3 rfl rfl (by decide) rfl rfl⟩

/-- Witness for C4 at a store with one pending order. -/
theorem kot_marks_order_preparing_witness :
    (dbOrder.orders.find? (fun x => x.id == kotReq1.orderId) = some storedOrder)
    ∧ ((create_kot dbOrder kotReq1).1.kot_batches =
          dbOrder.kot_batches ++ [kotDocOf dbOrder.nextId kotReq1]
      ∧ (create_kot dbOrder kotReq1).2.2 = kotDocOf dbOrder.nextId kotReq1
      ∧ (create_kot dbOrder kotReq1).1.orders.find? (fun x => x.id == kotReq1.orderId) =
          some { storedOrder with kotSent := true, status := "preparing" }) :=
  ⟨rfl, kot_marks_order_preparing dbOrder kotReq1 storedOrder rfl⟩

/-- Witness for C5: wastage of quantity 5 against 50 in stock. -/
theorem inventory_adjust_effect_witness :
    (invStock dbStocked 1 = some 50)
    ∧ ((("wastage" = "refill" ∨ "wastage" = "adjustment") →
          invStock (adjust_inventory dbStocked 1 "wastage" 5 "spill").1 1 = some (50 + 5))
      ∧ ("wastage" = "wastage" →
          invStock (adjust_inventory dbStocked 1 "wastage" 5 "spill").1 1 = some (50 - 5))
      ∧ (adjust_inventory dbStocked 1 "wastage" 5 "spill").1.inventory_transactions =
          dbStocked.inventory_transactions ++
            [adjustTxDoc dbStocked.nextId 1 "wastage" 5 "spill"]) :=
  ⟨rfl, inventory_adjust_effect dbStocked 1 "wastage" 5 "spill" 50 rfl⟩

/-- Witness for the amended C7 at the empty store. -/
theorem table_invariant_preservation_witness :
    tablesOk dbEmpty = true
    ∧ (tablesOk (get_tables dbEmpty).1 = true
      ∧ tablesOk (create_order dbEmpty takeoutReq).1 = true
      ∧ tablesOk (delete_order dbEmpty 1).1 = true
      ∧ (reqOk availableReq = true →
          tablesOk (update_table dbEmpty 1 availableReq).1 = true)) :=
  ⟨rfl, table_invariant_preservation dbEmpty takeoutReq 1 1 availableReq rfl⟩

/-- Witness for the amended C8 at a one-item store. -/
theorem get_inventory_sets_low_flags_witness :
    ((dbLowSeed.inventory.map (fun x => x.id)).Nodup)
    ∧ ((get_inventory dbLowSeed).1.inventory = dbLowSeed.inventory.map lowFlagSet
      ∧ (get_inventory dbLowSeed).2 = dbLowSeed.inventory.map lowFlagSet
      ∧ ∀ it, (lowFlagSet it).lowStock =
          (decide (it.stock ≤ it.minThreshold) || it.lowStock)) :=
  ⟨by decide, get_inventory_sets_low_flags dbLowSeed (by decide)⟩

/-- Witness for the amended C9 at the empty store. -/
theorem dinein_without_table_accepted_witness :
    (dineinNoTable.orderType = "dine-in" ∧ dineinNoTable.tableNumber = none)
    ∧ ((create_order dbEmpty dineinNoTable).2.2 =
          Outcome.ok (orderDocOf dbEmpty.nextId dineinNoTable dineinNoTable.tokenNumber)
      ∧ (create_order dbEmpty dineinNoTable).1.orders =
          dbEmpty.orders ++ [orderDocOf dbEmpty.nextId dineinNoTable dineinNoTable.tokenNumber]
      ∧ (create_order dbEmpty dineinNoTable).1.tables = dbEmpty.tables) :=
  ⟨⟨rfl, rfl⟩, dinein_without_table_accepted dbEmpty dineinNoTable rfl rfl⟩

/-- Witness for C10: deleting absent id 7 from the empty store. -/
theorem delete_missing_order_succeeds_witness :
    (dbEmpty.orders.find? (fun x => x.id == 7) = none)
    ∧ (delete_order dbEmpty 7 = (dbEmpty, [Event.orderDeleted 7], true)
      ∧ Event.room (Event.orderDeleted 7) = "orders") :=
  ⟨rfl, delete_missing_order_succeeds dbEmpty 7 rfl⟩

end RestoPOS
